import Mathlib

/-!
Shallow embedding of the Campus Life Planner validation and query engine
(src/scripts/validators.js and the search module) together with proofs of
the specification claims.  JavaScript strings are modelled as Lean
`String`/`List Char`; the ECMAScript regular-expression objects used by the
code are modelled explicitly (including the stateful `lastIndex` behaviour
of global regexes, which the source code relies on through `RegExp.test`
and `RegExp.exec`).
-/

namespace CampusPlanner

/-- Whitespace as recognised by JavaScript `String.prototype.trim` and the
regex class `\s` (ASCII whitespace plus NBSP and the Unicode line/paragraph
separators; the fragment used by this code base). -/
def isJsWs (c : Char) : Bool :=
  c = ' ' || c = '\t' || c = '\n' || c = '\r' || c = '\x0b' || c = '\x0c' ||
  c = '\u00A0' || c = '\u2028' || c = '\u2029'

/-- ECMAScript line terminators, the characters the regex atom dot does not
match when the `s` flag is absent. -/
def isLineTerm (c : Char) : Bool :=
  c = '\n' || c = '\r' || c = '\u2028' || c = '\u2029'

/-- The regex word-character class `\w`, i.e. `[A-Za-z0-9_]`. -/
def isWordChar (c : Char) : Bool :=
  c.isAlphanum || c = '_'

/-- Drop leading JS whitespace. -/
def jsTrimL (l : List Char) : List Char :=
  l.dropWhile isJsWs

/-- Drop trailing JS whitespace. -/
def jsTrimR (l : List Char) : List Char :=
  (l.reverse.dropWhile isJsWs).reverse

/-- `String.prototype.trim` on the character list. -/
def jsTrimData (l : List Char) : List Char :=
  jsTrimR (jsTrimL l)

/-- `String.prototype.trim`. -/
def jsTrim (s : String) : String :=
  ⟨jsTrimData s.data⟩

/-- Semantics of `patterns.title`, the regex `^\S(?:.*\S)?$` from
validators.js: nonempty, first and last characters non-whitespace, and no
line terminator strictly between them (dot does not match line
terminators). -/
def titleTestData (l : List Char) : Bool :=
  match l with
  | [] => false
  | c :: rest =>
    !isJsWs c &&
    (match rest.reverse with
     | [] => true
     | d :: mid => !isJsWs d && mid.all fun x => !isLineTerm x)

/-- Case-insensitive comparison of character lists, modelling how the `i`
flag canonicalises a backreference match. -/
def lowerEq (a b : List Char) : Bool :=
  a.map Char.toLower == b.map Char.toLower

/-- Character category for splitting a string into maximal runs: word
characters, whitespace, and everything else. -/
def charCat (c : Char) : Nat :=
  if isWordChar c then 0 else if isJsWs c then 1 else 2

/-- Accumulating helper of `charRuns`: `cur` is the current run reversed,
`cat` its category. -/
def runsAux (cat : Nat) (cur : List Char) : List Char → List (List Char)
  | [] => [cur.reverse]
  | c :: rest =>
    if charCat c = cat then runsAux cat (c :: cur) rest
    else cur.reverse :: runsAux (charCat c) [c] rest

/-- Split into maximal runs of equal category. -/
def charRuns : List Char → List (List Char)
  | [] => []
  | c :: rest => runsAux (charCat c) [c] rest

/-- A nonempty run of word characters. -/
def isWordRun (w : List Char) : Bool :=
  !w.isEmpty && w.all isWordChar

/-- A nonempty run of whitespace characters. -/
def isWsRun (g : List Char) : Bool :=
  !g.isEmpty && g.all isJsWs

/-- Scan a run decomposition for a word run, a whitespace-only gap, and a
second word run equal to the first up to case. -/
def dupInRuns : List (List Char) → Bool
  | w1 :: gap :: w2 :: rest =>
    (isWordRun w1 && isWsRun gap && isWordRun w2 && lowerEq w1 w2) ||
    dupInRuns (gap :: w2 :: rest)
  | _ => false

/-- Semantics of `patterns.duplicateWord`, the regex `\b(\w+)\s+\1\b` with
the `i` flag: two maximal word-character runs separated by whitespace only,
equal up to case.  The boundary assertions force both runs to be maximal,
and the `\s+` separator forces the gap between them to be nonempty
whitespace. -/
def dupScan (l : List Char) : Bool :=
  dupInRuns (charRuns l)

/-- Integer part of `patterns.duration`: `0|[1-9]\d*`. -/
def intPartOk (l : List Char) : Bool :=
  match l with
  | [] => false
  | ['0'] => true
  | c :: rest => (c.isDigit && c ≠ '0') && rest.all Char.isDigit

/-- Semantics of `patterns.duration`, the regex
`^(0|[1-9]\d*)(\.\d{1,2})?$`. -/
def durationTestData (l : List Char) : Bool :=
  let intp := l.takeWhile fun c => c ≠ '.'
  match l.dropWhile fun c => c ≠ '.' with
  | [] => intPartOk intp
  | _ :: frac =>
    intPartOk intp && !frac.isEmpty && frac.length ≤ 2 && frac.all Char.isDigit

/-- Numeric value of digit characters. -/
def digitsToNat (l : List Char) : Nat :=
  l.foldl (fun n c => n * 10 + (c.toNat - 48)) 0

/-- Value of a pattern-valid duration string in hundredths, the exact value
`parseFloat` produces on such strings (at most two fractional digits, so no
rounding is involved). -/
def durationHundredths (l : List Char) : Nat :=
  let intp := l.takeWhile fun c => c ≠ '.'
  let frac :=
    match l.dropWhile fun c => c ≠ '.' with
    | [] => []
    | _ :: f => f
  digitsToNat intp * 100 + digitsToNat frac * (if frac.length = 1 then 10 else 1)

/-- Semantics of `patterns.date`, the regex
`^\d{4}-(0[1-9]|1[0-2])-(0[1-9]|[12]\d|3[01])$`: exactly ten characters,
four digits, a hyphen, month 01 to 12, a hyphen, day 01 to 31 irrespective
of the month. -/
def dateTestData (l : List Char) : Bool :=
  match l with
  | [y1, y2, y3, y4, h1, m1, m2, h2, d1, d2] =>
    y1.isDigit && y2.isDigit && y3.isDigit && y4.isDigit &&
    h1 = '-' && h2 = '-' &&
    ((m1 = '0' && m2.isDigit && m2 ≠ '0') || (m1 = '1' && (m2 = '0' || m2 = '1' || m2 = '2'))) &&
    ((d1 = '0' && d2.isDigit && d2 ≠ '0') || ((d1 = '1' || d1 = '2') && d2.isDigit) ||
     (d1 = '3' && (d2 = '0' || d2 = '1')))
  | _ => false

/-- Gregorian leap-year rule, as used by the ECMAScript `Date` object. -/
def isLeapYear (y : Nat) : Bool :=
  y % 4 = 0 && (y % 100 ≠ 0 || y % 400 = 0)

/-- Days in a month of the proleptic Gregorian calendar. -/
def daysInMonth (y m : Nat) : Nat :=
  if m = 2 then (if isLeapYear y then 29 else 28)
  else if m = 4 || m = 6 || m = 9 || m = 11 then 30
  else 31

/-- Value of a single digit character. -/
def digitVal (c : Char) : Nat :=
  c.toNat - 48

/-- Platform model: whether `new Date(s + "T00:00:00Z")` yields a valid
time value for a string `s` in `YYYY-MM-DD` shape.  Per the ECMAScript Date
Time String Format, out-of-bounds field values make the string an invalid
instance of the format, so the day must exist in the given month and
year. -/
def calendarOk (l : List Char) : Bool :=
  match l with
  | [y1, y2, y3, y4, _, m1, m2, _, d1, d2] =>
    let y := digitVal y1 * 1000 + digitVal y2 * 100 + digitVal y3 * 10 + digitVal y4
    let m := digitVal m1 * 10 + digitVal m2
    let d := digitVal d1 * 10 + digitVal d2
    1 ≤ m && m ≤ 12 && 1 ≤ d && d ≤ daysInMonth y m
  | _ => false

/-- Two-state scanner for `patterns.tag`.  State `true`: at least one
letter of the current run has been read, so the string may end, continue
the run, or start a new run after a single separator.  State `false`: a
letter is required next. -/
def tagMachine : Bool → List Char → Bool
  | true, [] => true
  | false, [] => false
  | true, c :: rest =>
    if c.isAlpha then tagMachine true rest
    else if c = ' ' || c = '-' then tagMachine false rest
    else false
  | false, c :: rest => c.isAlpha && tagMachine true rest

/-- Semantics of `patterns.tag`, the regex `^[A-Za-z]+(?:[ -][A-Za-z]+)*$`:
letter runs joined by single spaces or hyphens.  Letter runs and separators
use disjoint character classes, so the decomposition is forced and the
deterministic scan is exact. -/
def tagTestData (l : List Char) : Bool :=
  tagMachine false l

/-- Per-field validation outcome, `{ valid, error }` in the source. -/
structure ValidationResult where
  valid : Bool
  error : String
deriving DecidableEq

/-- The checks `validators.validateTitle` performs on the trimmed title. -/
def titleChecks (trimmed : List Char) : ValidationResult :=
  if trimmed.length = 0 then ⟨false, "Title cannot be empty"⟩
  else if 100 < trimmed.length then ⟨false, "Title must be 100 characters or less"⟩
  else if !titleTestData trimmed then
    ⟨false, "Title cannot have leading/trailing spaces or consecutive spaces"⟩
  else if dupScan trimmed then ⟨false, "Title contains duplicate consecutive words"⟩
  else ⟨true, ""⟩

/-- `validators.validateTitle` from validators.js: the falsy guard, then
the checks on the trimmed string. -/
def validateTitle (title : String) : ValidationResult :=
  if title.data.isEmpty then ⟨false, "Title is required"⟩
  else titleChecks (jsTrimData title.data)

/-- The checks `validators.validateDuration` performs on the trimmed
duration.  The `num < 0` check of the source is kept even though the
pattern makes it unreachable. -/
def durationChecks (trimmed : List Char) : ValidationResult :=
  if trimmed.length = 0 then ⟨false, "Duration cannot be empty"⟩
  else if !durationTestData trimmed then
    ⟨false, "Duration must be a positive number with up to 2 decimal places"⟩
  else
    let num := durationHundredths trimmed
    if num < 0 then ⟨false, "Duration must be positive"⟩
    else if 1000000 < num then ⟨false, "Duration must be less than 10000"⟩
    else ⟨true, ""⟩

/-- `validators.validateDuration` from validators.js. -/
def validateDuration (duration : String) : ValidationResult :=
  if duration.data.isEmpty then ⟨false, "Duration is required"⟩
  else durationChecks (jsTrimData duration.data)

/-- `validators.validateDate` from validators.js: the regex layer followed
by the calendar-construction layer. -/
def validateDate (date : String) : ValidationResult :=
  if date.data.isEmpty then ⟨false, "Date is required"⟩
  else if !dateTestData date.data then ⟨false, "Date must be in YYYY-MM-DD format"⟩
  else if !calendarOk date.data then ⟨false, "Invalid date"⟩
  else ⟨true, ""⟩

/-- The checks `validators.validateTag` performs on the trimmed tag. -/
def tagChecks (trimmed : List Char) : ValidationResult :=
  if trimmed.length = 0 then ⟨false, "Tag cannot be empty"⟩
  else if 50 < trimmed.length then ⟨false, "Tag must be 50 characters or less"⟩
  else if !tagTestData trimmed then
    ⟨false, "Tag can only contain letters, spaces, and hyphens"⟩
  else ⟨true, ""⟩

/-- `validators.validateTag` from validators.js. -/
def validateTag (tag : String) : ValidationResult :=
  if tag.data.isEmpty then ⟨false, "Tag is required"⟩
  else tagChecks (jsTrimData tag.data)

/-- Claim-side predicate (from the specification wording of C2): the string
contains two consecutive whitespace characters. -/
def hasConsecWs (l : List Char) : Bool :=
  match l with
  | [] => false
  | [_] => false
  | a :: b :: rest => (isJsWs a && isJsWs b) || hasConsecWs (b :: rest)

/-- Platform model of an ECMAScript `RegExp` object: whether the `g` flag is
set, and the matcher, which given the subject and a start position returns
the first match at or after that position as an index/length pair.  The
stateful `lastIndex` property is threaded explicitly through `jsTest`,
`jsExec` and the loops below, following `RegExpBuiltinExec`. -/
structure JSRegex where
  global : Bool
  matchAt : List Char → Nat → Option (Nat × Nat)

/-- One step of `RegExpBuiltinExec`: for a global regex the search starts at
`lastIndex`; on success `lastIndex` becomes the end of the match, on failure
it is reset to `0`.  A non-global regex always searches from `0` and leaves
`lastIndex` untouched.  Returns the match (if any) and the updated
`lastIndex`. -/
def jsExec (r : JSRegex) (lastIndex : Nat) (l : List Char) : Option (Nat × Nat) × Nat :=
  if r.global then
    match r.matchAt l lastIndex with
    | some (i, len) => (some (i, len), i + len)
    | none => (none, 0)
  else
    (r.matchAt l 0, lastIndex)

/-- `RegExp.prototype.test` via `jsExec`, returning the Boolean result and
the updated `lastIndex`. -/
def jsTest (r : JSRegex) (lastIndex : Nat) (s : String) : Bool × Nat :=
  let (m, li) := jsExec r lastIndex s.data
  (m.isSome, li)

/-- Case-insensitive or exact equality of character lists, modelling the
ECMAScript canonicalisation applied under the `i` flag. -/
def eqMod (ci : Bool) (a b : List Char) : Bool :=
  if ci then lowerEq a b else a == b

/-- Matcher of a literal (metacharacter-free) pattern: the first position at
or after `start` where the pattern occurs. -/
def litMatchAt (pat : List Char) (ci : Bool) (l : List Char) (start : Nat) :
    Option (Nat × Nat) :=
  (((List.range (l.length + 1)).filter fun i =>
      decide (start ≤ i) && eqMod ci pat ((l.drop i).take pat.length)).head?).map
    fun i => (i, pat.length)

/-- Scanner modelling which pattern strings the ECMAScript `RegExp`
constructor rejects, on the bracket-class / group / escape fragment of the
pattern grammar: an unterminated character class, an unterminated group, an
unmatched closing parenthesis or a trailing backslash is an error.  The
first argument is the rest of the pattern, the second whether the scan is
inside a character class, the third the open-group count. -/
def regexScan : List Char → Bool → Nat → Option String
  | [], true, _ => some "Unterminated character class"
  | [], false, 0 => none
  | [], false, _ + 1 => some "Unterminated group"
  | ['\\'], _, _ => some "Backslash at end of pattern"
  | '\\' :: _ :: rest, inClass, depth => regexScan rest inClass depth
  | '[' :: rest, false, depth => regexScan rest true depth
  | ']' :: rest, true, depth => regexScan rest false depth
  | '(' :: rest, false, depth => regexScan rest false (depth + 1)
  | ')' :: _, false, 0 => some "Unmatched close parenthesis"
  | ')' :: rest, false, depth + 1 => regexScan rest false depth
  | _ :: rest, inClass, depth => regexScan rest inClass depth

/-- Platform model of the error side of `new RegExp(pattern, flags)`:
`none` when construction succeeds, `some message` when it throws. -/
def regexConstructErr (pattern : String) : Option String :=
  regexScan pattern.data false 0

/-- Platform model of a successfully constructed `RegExp` object.  The
matcher is exact for metacharacter-free patterns, the only ones any
concrete theorem below evaluates; the general theorems depend only on the
success/failure shape of construction, never on the matcher. -/
def mkJsRegex (pattern : String) (flags : String) : JSRegex :=
  ⟨flags.data.contains 'g',
   fun l start => litMatchAt pattern.data (flags.data.contains 'i') l start⟩

/-- Result record of `validators.compileRegex`, `{ regex, error }`. -/
structure CompileResult where
  regex : Option JSRegex
  error : String

/-- `validators.compileRegex` from validators.js: empty pattern gives a null
matcher with no error; a construction failure is caught and reported as a
message prefixed with `Invalid regex: `; otherwise the compiled regex is
returned.  The embedding is total, mirroring the `try`/`catch` that keeps
the source from ever throwing to its caller. -/
def compileRegex (pattern : String) (flags : String := "i") : CompileResult :=
  if pattern.data.isEmpty then ⟨none, ""⟩
  else
    match regexConstructErr pattern with
    | none => ⟨some (mkJsRegex pattern flags), ""⟩
    | some msg => ⟨none, "Invalid regex: " ++ msg⟩

/-- A located match, `{ text, index, length }` in the source. -/
structure MatchSpan where
  text : String
  index : Nat
  length : Nat
deriving DecidableEq

/-- The regex `validators.findMatches` actually scans with: the same
matcher with the `g` flag forced on. -/
def forceGlobal (r : JSRegex) : JSRegex :=
  { r with global := true }

/-- The `while ((match = regexWithG.exec(text)) !== null)` loop of
`validators.findMatches`, with an explicit fuel parameter: `none` means the
loop has not finished within `fuel` iterations.  Each successful `exec`
pushes a span and continues from the updated `lastIndex`; per
`RegExpBuiltinExec` a zero-length match leaves `lastIndex` where it was. -/
def findMatchesLoop (r : JSRegex) (l : List Char) :
    Nat → Nat → List MatchSpan → Option (List MatchSpan)
  | 0, _, _ => none
  | fuel + 1, lastIndex, acc =>
    match jsExec r lastIndex l with
    | (none, _) => some acc.reverse
    | (some (i, len), li) =>
      findMatchesLoop r l fuel li (⟨⟨(l.drop i).take len⟩, i, len⟩ :: acc)

/-- `validators.findMatches` under a fuel bound: null regex or empty text
give `[]` immediately; otherwise the exec loop runs on the globalised
regex starting from `lastIndex = 0`. -/
def findMatchesRun (regex : Option JSRegex) (text : String) (fuel : Nat) :
    Option (List MatchSpan) :=
  match regex with
  | none => some []
  | some r =>
    if text.data.isEmpty then some []
    else findMatchesLoop (forceGlobal r) text.data fuel 0 []

/-- Platform model of the regex `/x*/g`: at any position of the subject the
first match starts right there and covers the run of `x` characters. -/
def xStarMatchAt (l : List Char) (start : Nat) : Option (Nat × Nat) :=
  if start ≤ l.length then
    some (start, ((l.drop start).takeWhile fun c => c = 'x').length)
  else none

/-- The compiled form of the pattern `x*` with the `g` flag, a regex that
can match the empty string. -/
def xStarRegex : JSRegex :=
  ⟨true, xStarMatchAt⟩

/-- Platform model of the escaping `validators.escapeHtml` performs through
`div.textContent = text; div.innerHTML`: the characters `&`, `<`, `>` and
NBSP become entity references. -/
def escapeHtmlChar (c : Char) : String :=
  if c = '&' then "&amp;"
  else if c = '<' then "&lt;"
  else if c = '>' then "&gt;"
  else if c = '\u00A0' then "&nbsp;"
  else String.singleton c

/-- `validators.escapeHtml` from validators.js. -/
def escapeHtml (text : String) : String :=
  text.data.foldl (fun acc c => acc ++ escapeHtmlChar c) ""

/-- The global-regex path of `String.prototype.replace` with a functional
replacement: repeatedly find the next match from `pos`, copy the unmatched
text verbatim, and splice in the replacement; a zero-length match copies
one subject character and advances by one.  `fuel` bounds the iteration and
`text.length + 1` always suffices because `pos` strictly increases. -/
def jsReplaceLoop (r : JSRegex) (f : List Char → String) (l : List Char) :
    Nat → Nat → String → String
  | 0, pos, acc => acc ++ ⟨l.drop pos⟩
  | fuel + 1, pos, acc =>
    match r.matchAt l pos with
    | none => acc ++ ⟨l.drop pos⟩
    | some (i, len) =>
      let pre : String := ⟨(l.drop pos).take (i - pos)⟩
      let matched := (l.drop i).take len
      if len = 0 then
        jsReplaceLoop r f l fuel (i + 1) (acc ++ pre ++ f matched ++ ⟨(l.drop i).take 1⟩)
      else
        jsReplaceLoop r f l fuel (i + len) (acc ++ pre ++ f matched)

/-- The non-global path of `String.prototype.replace`: only the first match
is replaced. -/
def jsReplaceOnce (r : JSRegex) (f : List Char → String) (l : List Char) : String :=
  match r.matchAt l 0 with
  | none => ⟨l⟩
  | some (i, len) => ⟨l.take i⟩ ++ f ((l.drop i).take len) ++ ⟨l.drop (i + len)⟩

/-- `String.prototype.replace(regex, fn)`.  A global regex has its
`lastIndex` reset to `0` first, per `RegExp.prototype [Symbol.replace]`. -/
def jsReplace (r : JSRegex) (text : String) (f : List Char → String) : String :=
  if r.global then jsReplaceLoop r f text.data (text.data.length + 1) 0 ""
  else jsReplaceOnce r f text.data

/-- `validators.highlightMatches` from validators.js: null regex or empty
text are returned unchanged; otherwise every match is replaced by the
escaped match wrapped in a mark element.  Only the matched substring goes
through `escapeHtml`. -/
def highlightMatches (text : String) (regex : Option JSRegex) : String :=
  match regex with
  | none => text
  | some r =>
    if text.data.isEmpty then text
    else jsReplace r text fun m => "<mark>" ++ escapeHtml ⟨m⟩ ++ "</mark>"

/-- A task record; the fields the search path reads are `title`, `tag` and
`dueDate`. -/
structure Task where
  id : String
  title : String
  dueDate : String
  duration : String
  tag : String
deriving DecidableEq

/-- The field values the default `fields` argument of `search.searchTasks`
inspects, in evaluation order: `['title', 'tag', 'dueDate']`. -/
def taskFieldValues (t : Task) : List String :=
  [t.title, t.tag, t.dueDate]

/-- The `fields.some(field => regex.test(...))` callback: left-to-right,
short-circuiting, threading the regex object's `lastIndex` through the
`test` calls. -/
def testFieldsSome (r : JSRegex) : List String → Nat → Bool × Nat
  | [], li => (false, li)
  | v :: vs, li =>
    let t := jsTest r li v
    if t.1 then (true, t.2) else testFieldsSome r vs t.2

/-- The `tasks.filter(...)` loop of `search.searchTasks`, threading the
shared regex object's `lastIndex` across tasks in input order. -/
def searchTasksAux (r : JSRegex) : List Task → Nat → List Task
  | [], _ => []
  | t :: ts, li =>
    let b := testFieldsSome r (taskFieldValues t) li
    if b.1 then t :: searchTasksAux r ts b.2 else searchTasksAux r ts b.2

/-- `search.searchTasks` from the search module: a null regex returns the
input; otherwise the filter runs with the regex object's initial
`lastIndex` of `0`. -/
def searchTasks (tasks : List Task) (regex : Option JSRegex) : List Task :=
  match regex with
  | none => tasks
  | some r => searchTasksAux r tasks 0

/-- Parsed query intent, `{ command, pattern }` in the source. -/
structure QueryParse where
  command : Option String
  pattern : String
deriving DecidableEq

/-- Semantics of the query regex `/^@tag:(\w+)$/i`: the whole string is
`@tag:` (letters case-insensitively) followed by a nonempty run of word
characters, which is captured. -/
def tagCapture (l : List Char) : Option (List Char) :=
  match l with
  | c0 :: c1 :: c2 :: c3 :: c4 :: rest =>
    if c0 = '@' && c1.toLower = 't' && c2.toLower = 'a' && c3.toLower = 'g' &&
       c4 = ':' && !rest.isEmpty && rest.all isWordChar
    then some rest else none
  | _ => none

/-- The shape `\d{4}-\d{2}-\d{2}`, anchored. -/
def dateShape (l : List Char) : Bool :=
  match l with
  | [y1, y2, y3, y4, h1, m1, m2, h2, d1, d2] =>
    y1.isDigit && y2.isDigit && y3.isDigit && y4.isDigit &&
    h1 = '-' && h2 = '-' && m1.isDigit && m2.isDigit && d1.isDigit && d2.isDigit
  | _ => false

/-- Semantics of the query regex `/^@date:(\d{4}-\d{2}-\d{2})$/` (no `i`
flag, so the command word is case-sensitive). -/
def dateCapture (l : List Char) : Option (List Char) :=
  match l with
  | c0 :: c1 :: c2 :: c3 :: c4 :: c5 :: rest =>
    if c0 = '@' && c1 = 'd' && c2 = 'a' && c3 = 't' && c4 = 'e' && c5 = ':' &&
       dateShape rest
    then some rest else none
  | _ => none

/-- `search.parseQuery` from the search module. -/
def parseQuery (query : String) : QueryParse :=
  if query.data.isEmpty then ⟨none, ""⟩
  else
    match tagCapture query.data with
    | some w => ⟨some "tag", ⟨w⟩⟩
    | none =>
      match dateCapture query.data with
      | some d => ⟨some "date", ⟨d⟩⟩
      | none => ⟨none, query⟩

/-- `search.applyCommand` from the search module. -/
def applyCommand (tasks : List Task) (command : String) (pattern : String) :
    List Task :=
  if command = "tag" then tasks.filter fun t => t.tag == pattern
  else if command = "date" then tasks.filter fun t => t.dueDate == pattern
  else tasks

/-- Result record of `search.performSearch`, `{ tasks, error }`. -/
structure SearchResult where
  tasks : List Task
  error : String
deriving DecidableEq

/-- `search.performSearch` from the search module. -/
def performSearch (tasks : List Task) (query : String) (caseSensitive : Bool) :
    SearchResult :=
  if query.data.isEmpty then ⟨tasks, ""⟩
  else
    let pq := parseQuery query
    match pq.command with
    | some cmd => ⟨applyCommand tasks cmd pq.pattern, ""⟩
    | none =>
      let res := compileRegex pq.pattern (if caseSensitive then "g" else "gi")
      match res.regex with
      | none => ⟨[], res.error⟩
      | some r => ⟨searchTasks tasks (some r), ""⟩

/-- Declarative shape (from the C7 claim wording) of a string the tag
command matches: `@tag:` up to case, then a nonempty anchored run of word
characters. -/
def IsTagQuery (l : List Char) (w : List Char) : Prop :=
  ∃ t a g, l = '@' :: t :: a :: g :: ':' :: w ∧ t.toLower = 't' ∧
    a.toLower = 'a' ∧ g.toLower = 'g' ∧ w ≠ [] ∧ ∀ c ∈ w, isWordChar c

/-- Declarative shape (from the C7 claim wording) of a string the date
command matches. -/
def IsDateQuery (l : List Char) (d : List Char) : Prop :=
  l = '@' :: 'd' :: 'a' :: 't' :: 'e' :: ':' :: d ∧ dateShape d = true

/-- First concrete task of the C1 counterexample: its title is `ab`. -/
def taskA : Task :=
  ⟨"1", "ab", "2025-01-01", "30", "Work"⟩

/-- Second concrete task of the C1 counterexample: its title is also
`ab`. -/
def taskB : Task :=
  ⟨"2", "ab", "2025-01-02", "45", "Work"⟩

/-- A string is the empty string exactly when its character list is
empty. -/
theorem string_eq_empty_iff (s : String) : s = "" ↔ s.data = [] := by
  cases s with
  | mk d =>
    constructor
    · intro h
      have := congrArg String.data h
      simpa using this
    · intro h
      subst h
      rfl

/-- The error string `compileRegex` reports on a construction failure is
never empty. -/
theorem invalid_regex_msg_ne_empty (msg : String) : "Invalid regex: " ++ msg ≠ "" := by
  intro hEq
  have h2 : "Invalid regex: ".data ++ msg.data = ([] : List Char) := by
    rw [← String.data_append, hEq]
  rw [List.append_eq_nil] at h2
  exact absurd h2.1 (by decide)

/-- C1: counterexample to the claim that `performSearch` on a free pattern
keeps exactly the tasks one of whose fields matches.  Both tasks have title
`ab` and the pattern `ab` compiles, yet only the first task is returned:
the shared global regex keeps its `lastIndex` after the first successful
`test`, so the second task's identical title is searched from offset 2 and
misses.  The second conjunct shows the second title does match the same
compiled pattern when tested fresh. -/
theorem performSearch_global_lastIndex_drops_matching_task :
    performSearch [taskA, taskB] "ab" true = ⟨[taskA], ""⟩ ∧
    (jsTest (mkJsRegex "ab" "g") 0 taskB.title).1 = true := by
  decide

/-- C2: counterexample to the claim that every title accepted by
`validateTitle` has no two consecutive whitespace characters.  The string
`a  b` (two interior spaces) is accepted, because the title pattern
`^\S(?:.*\S)?$` only constrains the first and last characters, yet it
contains consecutive whitespace. -/
theorem validateTitle_accepts_consecutive_whitespace :
    validateTitle "a  b" = ⟨true, ""⟩ ∧ hasConsecWs (jsTrim "a  b").data = true := by
  decide

/-- C3: counterexample to the claim that `highlightMatches` escapes all
non-matched characters.  With the compiled pattern `x`, the input
`<b>x</b>` is returned with its markup intact around the highlighted
match: only the matched substring passes through `escapeHtml`, as the
second conjunct (what full escaping would produce) shows. -/
theorem highlightMatches_preserves_unmatched_markup :
    highlightMatches "<b>x</b>" (some (mkJsRegex "x" "gi")) = "<b><mark>x</mark></b>" ∧
    escapeHtml "<b>x</b>" = "&lt;b&gt;x&lt;/b&gt;" := by
  decide

/-- Helper for C4: on subject `b` the exec loop of `findMatches` with the
compiled `/x*/g` pattern makes no progress — every iteration produces the
zero-length match at position 0 and leaves `lastIndex` at 0 — so no amount
of fuel completes it. -/
theorem findMatchesLoop_xstar_stuck :
    ∀ (fuel : Nat) (acc : List MatchSpan),
      findMatchesLoop (forceGlobal xStarRegex) "b".data fuel 0 acc = none := by
  intro fuel
  induction fuel with
  | zero => intro _; rfl
  | succ n ih =>
    intro acc
    have hstep : findMatchesLoop (forceGlobal xStarRegex) "b".data (n + 1) 0 acc =
        findMatchesLoop (forceGlobal xStarRegex) "b".data n 0 (⟨⟨[]⟩, 0, 0⟩ :: acc) := rfl
    rw [hstep]
    exact ih _

/-- C4: counterexample to the claim that `findMatches` terminates for every
text and compiled pattern.  For the pattern `x*` (which can match the empty
string) and the text `b`, the `while (exec)` loop never terminates: a
zero-length match does not advance `lastIndex`, so the fuelled model of the
loop fails to complete for every fuel bound. -/
theorem findMatches_never_terminates_on_nullable_pattern :
    ∀ fuel : Nat, findMatchesRun (some xStarRegex) "b" fuel = none := by
  intro fuel
  have h : findMatchesRun (some xStarRegex) "b" fuel =
      findMatchesLoop (forceGlobal xStarRegex) "b".data fuel 0 [] := rfl
  rw [h]
  exact findMatchesLoop_xstar_stuck fuel []

/-- C5: the two documented validation layers of `validateDate`:
`2025-09-29` passes both layers; `2025-13-01` fails the regex layer;
`2025-02-30` passes the regex layer (day 01 to 31 regardless of month) but
is rejected by the calendar-construction layer with the calendar-layer
error message. -/
theorem validateDate_two_layer_examples :
    validateDate "2025-09-29" = ⟨true, ""⟩ ∧
    validateDate "2025-13-01" = ⟨false, "Date must be in YYYY-MM-DD format"⟩ ∧
    dateTestData "2025-02-30".data = true ∧
    validateDate "2025-02-30" = ⟨false, "Invalid date"⟩ := by
  decide

/-- C6: `compileRegex` is total and never throws: an empty pattern yields a
null matcher with an empty error string; a pattern the constructor rejects
(such as `[`) yields a null matcher with a non-empty descriptive error;
any other pattern yields a usable matcher and an empty error string. -/
theorem compileRegex_never_throws_trichotomy :
    (∀ flags, compileRegex "" flags = ⟨none, ""⟩) ∧
    (∀ pattern flags msg, pattern ≠ "" → regexConstructErr pattern = some msg →
      compileRegex pattern flags = ⟨none, "Invalid regex: " ++ msg⟩ ∧
      "Invalid regex: " ++ msg ≠ "") ∧
    (∀ pattern flags, pattern ≠ "" → regexConstructErr pattern = none →
      compileRegex pattern flags = ⟨some (mkJsRegex pattern flags), ""⟩) ∧
    (compileRegex "[" "i").regex = none ∧
    (compileRegex "[" "i").error = "Invalid regex: Unterminated character class" := by
  refine ⟨fun flags => rfl, ?_, ?_, rfl, by decide⟩
  · intro pattern flags msg hp hm
    have hne : ¬(pattern.data.isEmpty = true) := by
      simp only [List.isEmpty_eq_true]
      intro h0
      exact hp ((string_eq_empty_iff pattern).mpr h0)
    refine ⟨?_, invalid_regex_msg_ne_empty msg⟩
    unfold compileRegex
    rw [if_neg hne, hm]
  · intro pattern flags hp hm
    have hne : ¬(pattern.data.isEmpty = true) := by
      simp only [List.isEmpty_eq_true]
      intro h0
      exact hp ((string_eq_empty_iff pattern).mpr h0)
    unfold compileRegex
    rw [if_neg hne, hm]

/-- Witness for C6 at concrete inputs: `ab` compiles to a usable matcher
with no error, `[` fails with the non-empty unterminated-class message. -/
theorem compileRegex_never_throws_trichotomy_witness :
    compileRegex "ab" "g" = ⟨some (mkJsRegex "ab" "g"), ""⟩ ∧
    compileRegex "[" "gi" = ⟨none, "Invalid regex: Unterminated character class"⟩ ∧
    ("Invalid regex: " ++ "Unterminated character class") ≠ "" := by
  refine ⟨?_, ?_, ?_⟩
  · exact compileRegex_never_throws_trichotomy.2.2.1 "ab" "g" (by decide) (by rfl)
  · exact (compileRegex_never_throws_trichotomy.2.1 "[" "gi" "Unterminated character class"
      (by decide) (by rfl)).1
  · exact (compileRegex_never_throws_trichotomy.2.1 "[" "gi" "Unterminated character class"
      (by decide) (by rfl)).2

/-- C7: `parseQuery` is total and classifies every string into exactly one
of the three shapes, with structural precedence: the empty string gives the
null command with empty pattern; a whole-string tag command gives
`tag`/captured word; failing that, a whole-string date command gives
`date`/captured date; anything else, including near-commands with trailing
characters, falls through to the null command with the raw string.  The
two iff conjuncts characterise the command matchers declaratively (anchored
`@tag:` up to case plus a nonempty word-character run; anchored literal
`@date:` plus a ten-character date shape). -/
theorem parseQuery_total_classification :
    parseQuery "" = ⟨none, ""⟩ ∧
    (∀ q w, tagCapture q.data = some w → parseQuery q = ⟨some "tag", ⟨w⟩⟩) ∧
    (∀ q d, tagCapture q.data = none → dateCapture q.data = some d →
      parseQuery q = ⟨some "date", ⟨d⟩⟩) ∧
    (∀ q, q ≠ "" → tagCapture q.data = none → dateCapture q.data = none →
      parseQuery q = ⟨none, q⟩) ∧
    (∀ l w, tagCapture l = some w ↔ IsTagQuery l w) ∧
    (∀ l d, dateCapture l = some d ↔ IsDateQuery l d) ∧
    parseQuery "@tag:Academic" = ⟨some "tag", "Academic"⟩ ∧
    parseQuery "@tag:Academic " = ⟨none, "@tag:Academic "⟩ := by
  refine ⟨rfl, ?_, ?_, ?_, ?_, ?_, by decide, by decide⟩
  · intro q w h
    have hne : ¬(q.data.isEmpty = true) := by
      simp only [List.isEmpty_eq_true]
      intro h0
      rw [h0] at h
      simp [tagCapture] at h
    unfold parseQuery
    rw [if_neg hne, h]
  · intro q d h1 h2
    have hne : ¬(q.data.isEmpty = true) := by
      simp only [List.isEmpty_eq_true]
      intro h0
      rw [h0] at h2
      simp [dateCapture] at h2
    unfold parseQuery
    rw [if_neg hne, h1, h2]
  · intro q hq h1 h2
    have hne : ¬(q.data.isEmpty = true) := by
      simp only [List.isEmpty_eq_true]
      intro h0
      exact hq ((string_eq_empty_iff q).mpr h0)
    unfold parseQuery
    rw [if_neg hne, h1, h2]
  · intro l w
    constructor
    · intro h
      unfold tagCapture at h
      split at h
      · rename_i c0 c1 c2 c3 c4 rest
        split at h
        · rename_i hc
          simp only [Bool.and_eq_true, decide_eq_true_eq, Bool.not_eq_true',
            List.isEmpty_eq_false, List.all_eq_true] at hc
          obtain ⟨⟨⟨⟨⟨⟨h0, h1⟩, h2⟩, h3⟩, h4⟩, h5⟩, h6⟩ := hc
          cases h
          exact ⟨c1, c2, c3, by rw [h0, h4], h1, h2, h3, h5, h6⟩
        · exact absurd h (by simp)
      · exact absurd h (by simp)
    · intro h
      obtain ⟨t, a, g, hl, ht, ha, hg, hw, hall⟩ := h
      subst hl
      simp only [tagCapture]
      split
      · rfl
      · rename_i hfalse
        exfalso
        apply hfalse
        simp only [Bool.and_eq_true, decide_eq_true_eq, Bool.not_eq_true',
          List.isEmpty_eq_false, List.all_eq_true]
        exact ⟨⟨⟨⟨⟨⟨trivial, ht⟩, ha⟩, hg⟩, trivial⟩, hw⟩, hall⟩
  · intro l d
    constructor
    · intro h
      unfold dateCapture at h
      split at h
      · rename_i c0 c1 c2 c3 c4 c5 rest
        split at h
        · rename_i hc
          simp only [Bool.and_eq_true, decide_eq_true_eq] at hc
          obtain ⟨⟨⟨⟨⟨⟨h0, h1⟩, h2⟩, h3⟩, h4⟩, h5⟩, h6⟩ := hc
          cases h
          exact ⟨by rw [h0, h1, h2, h3, h4, h5], h6⟩
        · exact absurd h (by simp)
      · exact absurd h (by simp)
    · intro h
      obtain ⟨hl, hd⟩ := h
      subst hl
      simp only [dateCapture]
      split
      · rfl
      · rename_i hfalse
        exfalso
        apply hfalse
        simp only [Bool.and_eq_true, decide_eq_true_eq]
        exact ⟨⟨⟨⟨⟨⟨trivial, trivial⟩, trivial⟩, trivial⟩, trivial⟩, trivial⟩, hd⟩

/-- Witness for C7 at concrete inputs: a date command parses to the date
shape, and a plain word falls through to the free-pattern shape. -/
theorem parseQuery_total_classification_witness :
    parseQuery "@date:2025-09-29" = ⟨some "date", "2025-09-29"⟩ ∧
    parseQuery "xyz" = ⟨none, "xyz"⟩ := by
  constructor
  · exact parseQuery_total_classification.2.2.1 "@date:2025-09-29" "2025-09-29".data
      (by decide) (by decide)
  · exact parseQuery_total_classification.2.2.2.1 "xyz" (by decide) (by decide) (by decide)

/-- C8: the error-handling contract of `performSearch`: an empty query
returns the full input list with an empty error string, and a free-pattern
query whose compilation fails returns an empty task list together with the
compiler's error message, which is never empty.  The embedding is total, so
nothing is thrown to the caller. -/
theorem performSearch_error_contract :
    (∀ tasks cs, performSearch tasks "" cs = ⟨tasks, ""⟩) ∧
    (∀ tasks q cs msg, parseQuery q = ⟨none, q⟩ → q ≠ "" →
      regexConstructErr q = some msg →
      performSearch tasks q cs = ⟨[], "Invalid regex: " ++ msg⟩ ∧
      "Invalid regex: " ++ msg ≠ "") := by
  constructor
  · intro tasks cs
    rfl
  · intro tasks q cs msg hpq hq hmsg
    have hne : ¬(q.data.isEmpty = true) := by
      simp only [List.isEmpty_eq_true]
      intro h0
      exact hq ((string_eq_empty_iff q).mpr h0)
    refine ⟨?_, invalid_regex_msg_ne_empty msg⟩
    unfold performSearch
    rw [if_neg hne, hpq]
    show (let res := compileRegex q (if cs then "g" else "gi")
          match res.regex with
          | none => ({ tasks := [], error := res.error } : SearchResult)
          | some r => { tasks := searchTasks tasks (some r), error := "" }) =
      ⟨[], "Invalid regex: " ++ msg⟩
    have hcomp : compileRegex q (if cs then "g" else "gi") =
        ⟨none, "Invalid regex: " ++ msg⟩ := by
      unfold compileRegex
      rw [if_neg hne, hmsg]
    rw [hcomp]

/-- Witness for C8 at concrete inputs: the unparseable pattern `[` returns
no tasks and the compiler's non-empty message. -/
theorem performSearch_error_contract_witness :
    performSearch [taskA] "" false = ⟨[taskA], ""⟩ ∧
    performSearch [taskA] "[" false = ⟨[], "Invalid regex: Unterminated character class"⟩ ∧
    ("Invalid regex: " ++ "Unterminated character class") ≠ "" := by
  refine ⟨performSearch_error_contract.1 [taskA] false, ?_, ?_⟩
  · exact (performSearch_error_contract.2 [taskA] "[" false "Unterminated character class"
      (by decide) (by decide) (by rfl)).1
  · exact (performSearch_error_contract.2 [taskA] "[" false "Unterminated character class"
      (by decide) (by decide) (by rfl)).2

/-- The filter loop of `searchTasks` only ever keeps or drops the current
task, so its output is a sublist (same relative order, no new elements) of
its input, whatever the regex state. -/
theorem searchTasksAux_sublist (r : JSRegex) :
    ∀ (ts : List Task) (li : Nat), List.Sublist (searchTasksAux r ts li) ts := by
  intro ts
  induction ts with
  | nil => intro li; exact List.Sublist.refl []
  | cons t ts ih =>
    intro li
    show List.Sublist
      (if (testFieldsSome r (taskFieldValues t) li).1 then
        t :: searchTasksAux r ts (testFieldsSome r (taskFieldValues t) li).2
      else searchTasksAux r ts (testFieldsSome r (taskFieldValues t) li).2)
      (t :: ts)
    split
    · exact List.Sublist.cons₂ t (ih _)
    · exact List.Sublist.cons t (ih _)

/-- `searchTasks` returns a sublist of its input. -/
theorem searchTasks_sublist (tasks : List Task) (regex : Option JSRegex) :
    List.Sublist (searchTasks tasks regex) tasks := by
  cases regex with
  | none => exact List.Sublist.refl tasks
  | some r => exact searchTasksAux_sublist r tasks 0

/-- `applyCommand` returns a sublist of its input. -/
theorem applyCommand_sublist (tasks : List Task) (cmd pat : String) :
    List.Sublist (applyCommand tasks cmd pat) tasks := by
  unfold applyCommand
  split
  · exact List.filter_sublist tasks
  · split
    · exact List.filter_sublist tasks
    · exact List.Sublist.refl tasks

/-- C9: `searchTasks`, `applyCommand` and `performSearch` never mutate the
task collection they receive — the embedding is pure because the source
touches the collection only through the non-mutating `filter` and `some`
array methods — and each returns a new filtered view: a sublist of the
input, containing the same records in the same relative order. -/
theorem search_functions_never_mutate :
    ∀ (tasks : List Task) (regex : Option JSRegex) (cmd pat query : String)
      (cs : Bool),
      List.Sublist (searchTasks tasks regex) tasks ∧
      List.Sublist (applyCommand tasks cmd pat) tasks ∧
      List.Sublist (performSearch tasks query cs).tasks tasks := by
  intro tasks regex cmd pat query cs
  refine ⟨searchTasks_sublist tasks regex, applyCommand_sublist tasks cmd pat, ?_⟩
  unfold performSearch
  split
  · exact List.Sublist.refl tasks
  · dsimp only
    cases hc : (parseQuery query).command with
    | some cmd2 => exact applyCommand_sublist tasks cmd2 _
    | none =>
      dsimp only
      cases hr : (compileRegex (parseQuery query).pattern (if cs then "g" else "gi")).regex with
      | none => exact List.nil_sublist tasks
      | some r => exact searchTasks_sublist tasks (some r)

/-- Dropping a prefix twice is the same as dropping it once. -/
theorem dropWhile_idem (p : Char → Bool) (l : List Char) :
    (l.dropWhile p).dropWhile p = l.dropWhile p := by
  induction l with
  | nil => rfl
  | cons a l ih =>
    by_cases h : p a = true
    · rw [List.dropWhile_cons_of_pos h]
      exact ih
    · rw [List.dropWhile_cons_of_neg h, List.dropWhile_cons_of_neg h]

/-- Right trim is idempotent. -/
theorem jsTrimR_idem (l : List Char) : jsTrimR (jsTrimR l) = jsTrimR l := by
  unfold jsTrimR
  rw [List.reverse_reverse, dropWhile_idem]

/-- Left-trimming after a full trim does nothing: the head survived the
first left trim, so it is not whitespace. -/
theorem jsTrimL_jsTrimR_jsTrimL (l : List Char) :
    jsTrimL (jsTrimR (jsTrimL l)) = jsTrimR (jsTrimL l) := by
  cases hy : jsTrimR (jsTrimL l) with
  | nil => rfl
  | cons a as =>
    obtain ⟨t, ht⟩ := List.dropWhile_suffix (l := (jsTrimL l).reverse) isJsWs
    have hx : jsTrimR (jsTrimL l) ++ t.reverse = jsTrimL l := by
      have h2 := congrArg List.reverse ht
      rw [List.reverse_append, List.reverse_reverse] at h2
      exact h2
    rw [hy] at hx
    have hhead : (jsTrimL l).head? = some a := by
      rw [← hx]
      rfl
    have hna : isJsWs a = false := by
      have hh := List.head?_dropWhile_not isJsWs l
      rw [show jsTrimL l = l.dropWhile isJsWs from rfl] at hhead
      rw [hhead] at hh
      exact hh
    show List.dropWhile isJsWs (a :: as) = a :: as
    rw [List.dropWhile_cons_of_neg]
    simp [hna]

/-- `String.prototype.trim` is idempotent. -/
theorem jsTrimData_idem (l : List Char) : jsTrimData (jsTrimData l) = jsTrimData l := by
  unfold jsTrimData
  rw [jsTrimL_jsTrimR_jsTrimL, jsTrimR_idem]

/-- A digit character is not JS whitespace. -/
theorem digit_not_jsWs (c : Char) (h : c.isDigit = true) : isJsWs c = false := by
  unfold isJsWs
  simp only [Bool.or_eq_false_iff, decide_eq_false_iff_not]
  repeat' apply And.intro
  all_goals intro e
  all_goals subst e
  all_goals exact absurd h (by decide)

/-- `validateTitle` is invariant under surrounding whitespace (when the
trimmed string is nonempty): both sides run the same checks on the same
trimmed string, because trimming is idempotent. -/
theorem validateTitle_trim (s : String) (h : jsTrim s ≠ "") :
    validateTitle s = validateTitle (jsTrim s) := by
  have hdata : jsTrimData s.data ≠ [] := by
    intro h0
    apply h
    apply (string_eq_empty_iff _).mpr
    exact h0
  have hs : s.data ≠ [] := by
    intro h0
    apply hdata
    rw [h0]
    rfl
  have hE1 : ¬(s.data.isEmpty = true) := by simp [List.isEmpty_eq_true, hs]
  have hE2 : ¬((jsTrim s).data.isEmpty = true) := by
    simp only [List.isEmpty_eq_true]
    exact hdata
  unfold validateTitle
  rw [if_neg hE1, if_neg hE2]
  have hidem : jsTrimData (jsTrim s).data = jsTrimData s.data := jsTrimData_idem s.data
  rw [hidem]

/-- `validateTag` is invariant under surrounding whitespace (when the
trimmed string is nonempty). -/
theorem validateTag_trim (s : String) (h : jsTrim s ≠ "") :
    validateTag s = validateTag (jsTrim s) := by
  have hdata : jsTrimData s.data ≠ [] := by
    intro h0
    apply h
    apply (string_eq_empty_iff _).mpr
    exact h0
  have hs : s.data ≠ [] := by
    intro h0
    apply hdata
    rw [h0]
    rfl
  have hE1 : ¬(s.data.isEmpty = true) := by simp [List.isEmpty_eq_true, hs]
  have hE2 : ¬((jsTrim s).data.isEmpty = true) := by
    simp only [List.isEmpty_eq_true]
    exact hdata
  unfold validateTag
  rw [if_neg hE1, if_neg hE2]
  have hidem : jsTrimData (jsTrim s).data = jsTrimData s.data := jsTrimData_idem s.data
  rw [hidem]

/-- `validateDuration` is invariant under surrounding whitespace (when the
trimmed string is nonempty). -/
theorem validateDuration_trim (s : String) (h : jsTrim s ≠ "") :
    validateDuration s = validateDuration (jsTrim s) := by
  have hdata : jsTrimData s.data ≠ [] := by
    intro h0
    apply h
    apply (string_eq_empty_iff _).mpr
    exact h0
  have hs : s.data ≠ [] := by
    intro h0
    apply hdata
    rw [h0]
    rfl
  have hE1 : ¬(s.data.isEmpty = true) := by simp [List.isEmpty_eq_true, hs]
  have hE2 : ¬((jsTrim s).data.isEmpty = true) := by
    simp only [List.isEmpty_eq_true]
    exact hdata
  unfold validateDuration
  rw [if_neg hE1, if_neg hE2]
  have hidem : jsTrimData (jsTrim s).data = jsTrimData s.data := jsTrimData_idem s.data
  rw [hidem]

/-- `validateDate` does not trim: any string it accepts already has no
surrounding whitespace, because the date pattern pins the first and last
characters to digits. -/
theorem validateDate_valid_fixes_trim (s : String)
    (h : (validateDate s).valid = true) : jsTrim s = s := by
  have hT : dateTestData s.data = true := by
    unfold validateDate at h
    split at h
    · exact absurd h (by simp)
    · split at h
      · exact absurd h (by simp)
      · rename_i h1 h2
        cases hdt : dateTestData s.data
        · rw [hdt] at h2
          simp at h2
        · rfl
  have hdataeq : jsTrimData s.data = s.data := by
    unfold dateTestData at hT
    split at hT
    · rename_i y1 y2 y3 y4 c5 m1 m2 c8 d1 d2 heq
      simp only [Bool.and_eq_true, Bool.or_eq_true, decide_eq_true_eq] at hT
      obtain ⟨⟨⟨⟨⟨⟨⟨hy1, hy2⟩, hy3⟩, hy4⟩, hh1⟩, hh2⟩, hm⟩, hd⟩ := hT
      have hy1ws : isJsWs y1 = false := digit_not_jsWs y1 hy1
      have hd2 : isJsWs d2 = false := by
        rcases hd with (⟨⟨_, hdig⟩, _⟩ | ⟨_, hdig⟩) | ⟨_, hor⟩
        · exact digit_not_jsWs d2 hdig
        · exact digit_not_jsWs d2 hdig
        · rcases hor with h9 | h9 <;> subst h9 <;> decide
      rw [heq]
      unfold jsTrimData jsTrimL jsTrimR
      rw [List.dropWhile_cons_of_neg (by simp [hy1ws])]
      rw [show (y1 :: y2 :: y3 :: y4 :: c5 :: m1 :: m2 :: c8 :: d1 :: d2 :: List.nil).reverse =
          [d2, d1, c8, m2, m1, c5, y4, y3, y2, y1] from rfl]
      rw [List.dropWhile_cons_of_neg (by simp [hd2])]
      rw [show ([d2, d1, c8, m2, m1, c5, y4, y3, y2, y1] : List Char).reverse =
          [y1, y2, y3, y4, c5, m1, m2, c8, d1, d2] from rfl]
    · exact absurd hT (by simp)
  show (⟨jsTrimData s.data⟩ : String) = s
  rw [hdataeq]

/-- C10: field validation is invariant under surrounding whitespace for the
trimming validators: whenever the trimmed string is nonempty, `validateTitle`,
`validateTag` and `validateDuration` return the same result on the raw and
the trimmed input.  `validateDate` is the exception: it does not trim, and
indeed any string it accepts is already trim-fixed, so surrounding
whitespace always fails it. -/
theorem validators_trim_invariance :
    (∀ s : String, jsTrim s ≠ "" →
      validateTitle s = validateTitle (jsTrim s) ∧
      validateTag s = validateTag (jsTrim s) ∧
      validateDuration s = validateDuration (jsTrim s)) ∧
    (∀ s : String, (validateDate s).valid = true → jsTrim s = s) := by
  constructor
  · intro s h
    exact ⟨validateTitle_trim s h, validateTag_trim s h, validateDuration_trim s h⟩
  · intro s h
    exact validateDate_valid_fixes_trim s h

/-- Witness for C10 at concrete inputs: a padded title validates like its
trimmed form, and an accepted date string is unchanged by trimming. -/
theorem validators_trim_invariance_witness :
    validateTitle " Study " = validateTitle "Study" ∧
    jsTrim "2025-09-29" = "2025-09-29" := by
  constructor
  · have h := (validators_trim_invariance.1 " Study " (by decide)).1
    rw [show jsTrim " Study " = "Study" from by decide] at h
    exact h
  · exact validators_trim_invariance.2 "2025-09-29" (by decide)

end CampusPlanner
